import Mathlib

/-!
Shallow embedding of the statistical core of the chemo_stats repository
(backend/services/anova.py, with the structural input validation of
backend/utils/file_parser.py), together with theorems settling the spec
claims about it.

Modelling conventions:
* Matrix cells are `Option ℚ`; `none` models the NaN sentinel.
* The data matrix is given column-wise: a list of columns, each column a
  list of cells aligned by row index with the class-label vector.
* The floating-point routines of scipy (`f_oneway`, `ttest_ind`) are
  modelled as oracle parameters returning `Option ℚ` components, where
  `none` models a NaN result; the square root inside `np.std` is likewise
  an oracle `ℚ → ℚ`.  Every claim settled here is independent of the
  values these oracles return.
* The statsmodels `fdrcorrection` routine (method `indep`, i.e. `fdr_bh`)
  is embedded in full: argsort, elementwise step-up comparison, fill up to
  the largest rejected rank, corrected values with running minimum from
  the last rank and the clip at 1, and scatter back to original order.
* Python dicts keyed by synthesized strings `Group{label}` are modelled
  as association lists keyed by the integer label itself (the string key
  is in bijection with the label).
-/

namespace ChemoStats

/-- One matrix cell; `none` models the NaN sentinel of the source. -/
abbrev Cell := Option ℚ

/-- Sorted list of the distinct values of a list of integer class labels,
modelling `np.unique` (ascending order, duplicates removed). -/
def npUnique (l : List ℤ) : List ℤ :=
  (List.insertionSort (fun a b => a ≤ b) l).dedup

/-- Arithmetic mean, modelling `np.mean` (the analyzer only applies it to
nonempty lists; on `[]` this total version returns 0). -/
def listMean (xs : List ℚ) : ℚ := xs.sum / xs.length

/-- Minimum of a list, modelling `np.min` (call sites guard nonemptiness). -/
def listMin (xs : List ℚ) : ℚ := (xs.min?).getD 0

/-- Maximum of a list, modelling `np.max` (call sites guard nonemptiness). -/
def listMax (xs : List ℚ) : ℚ := (xs.max?).getD 0

/-- Oracle for the square root taken inside `np.std`. -/
abbrev SqrtFn := ℚ → ℚ

/-- Oracle for `scipy.stats.f_oneway`: list of groups to (F, p); a `none`
component models a NaN result. -/
abbrev FOneway := List (List ℚ) → Option ℚ × Option ℚ

/-- Oracle for `scipy.stats.ttest_ind`: two groups to (t, p); a `none`
component models a NaN result. -/
abbrev TTest := List ℚ → List ℚ → Option ℚ × Option ℚ

/-! ### CorrectionEngine: statsmodels fdrcorrection, method indep (fdr_bh) -/

/-- Ordering of (original index, p-value) pairs by p-value with index
tie-break; sorting by it models `np.argsort` on the p-value vector. -/
def pairLe (a b : ℕ × ℚ) : Prop := a.2 < b.2 ∨ (a.2 = b.2 ∧ a.1 ≤ b.1)

instance : DecidableRel pairLe := fun a b => by
  unfold pairLe; infer_instance

instance : IsTotal (ℕ × ℚ) pairLe where
  total a b := by
    rcases lt_trichotomy a.2 b.2 with h | h | h
    · exact Or.inl (Or.inl h)
    · rcases Nat.le_total a.1 b.1 with h1 | h1
      · exact Or.inl (Or.inr ⟨h, h1⟩)
      · exact Or.inr (Or.inr ⟨h.symm, h1⟩)
    · exact Or.inr (Or.inl h)

instance : IsTrans (ℕ × ℚ) pairLe where
  trans a b c hab hbc := by
    rcases hab with h1 | ⟨h1, h1i⟩
    · rcases hbc with h2 | ⟨h2, _⟩
      · exact Or.inl (h1.trans h2)
      · exact Or.inl (h2 ▸ h1)
    · rcases hbc with h2 | ⟨h2, h2i⟩
      · exact Or.inl (h1 ▸ h2)
      · exact Or.inr ⟨h1.trans h2, h1i.trans h2i⟩

/-- The p-value vector tagged with original indices and sorted ascending:
the sorted counterpart of `pvals_sortind` / `pvals_sorted`. -/
def sortedPairs (ps : List ℚ) : List (ℕ × ℚ) :=
  List.insertionSort pairLe ((List.range ps.length).zip ps)

/-- Original positions in ascending p-value order (`pvals_sortind`). -/
def sortind (ps : List ℚ) : List ℕ := (sortedPairs ps).map Prod.fst

/-- The p-values in ascending order (`pvals_sorted`). -/
def psSorted (ps : List ℚ) : List ℚ := (sortedPairs ps).map Prod.snd

/-- Threshold factor of rank k (0-based) among n tests: `ecdffactor`,
i.e. `np.arange(1, n+1) / n` at position k. -/
def ecdffactor (n k : ℕ) : ℚ := (k + 1) / n

/-- Elementwise step-up comparison `pvals_sorted <= ecdffactor * alpha`. -/
def rejectBase (ps : List ℚ) (alpha : ℚ) : List Bool :=
  (psSorted ps).mapIdx (fun k p => decide (p ≤ ecdffactor ps.length k * alpha))

/-- Indices of true entries, modelling `np.nonzero(reject)[0]`. -/
def trueIdxs (bs : List Bool) : List ℕ :=
  (List.range bs.length).filter (fun i => bs.getD i false)

/-- Largest rejected rank, `max(np.nonzero(reject)[0])` (call guarded by
`reject.any()`). -/
def rejectmax (bs : List Bool) : ℕ := (trueIdxs bs).foldr max 0

/-- When anything is rejected, fill `reject[:rejectmax] = True`. -/
def stepUpFill (bs : List Bool) : List Bool :=
  if bs.any id then
    bs.mapIdx (fun k b => decide (k < rejectmax bs) || b)
  else bs

/-- BH rejection flags in ascending p-value order. -/
def rejectSorted (ps : List ℚ) (alpha : ℚ) : List Bool :=
  stepUpFill (rejectBase ps alpha)

/-- Scatter values from sorted order back to original positions:
`out[ind[k]] = vals[k]`, modelling the numpy fancy-index assignment
(`ind` is a permutation of `range n`). -/
def scatterBack {α : Type} (ind : List ℕ) (vals : List α) (n : ℕ) (dflt : α) : List α :=
  (List.range n).map (fun i =>
    (((ind.zip vals).find? (fun q => q.1 == i)).map Prod.snd).getD dflt)

/-- BH rejection flags in original order (first component returned by
`fdrcorrection`). -/
def fdrReject (ps : List ℚ) (alpha : ℚ) : List Bool :=
  scatterBack (sortind ps) (rejectSorted ps alpha) ps.length false

/-- Raw corrected values `pvals_sorted / ecdffactor`. -/
def qRaw (ps : List ℚ) : List ℚ :=
  (psSorted ps).mapIdx (fun k p => p / ecdffactor ps.length k)

/-- Running minimum from the last rank down to the first, modelling
`np.minimum.accumulate(raw[::-1])[::-1]`. -/
def suffixMin : List ℚ → List ℚ
  | [] => []
  | a :: rest =>
    match suffixMin rest with
    | [] => [a]
    | b :: tl => min a b :: b :: tl

/-- Clip corrected values above 1 down to 1
(`pvals_corrected[pvals_corrected > 1] = 1`). -/
def clip1 (qs : List ℚ) : List ℚ := qs.map (fun q => if q > 1 then 1 else q)

/-- BH q-values in ascending p-value order. -/
def qSorted (ps : List ℚ) : List ℚ := clip1 (suffixMin (qRaw ps))

/-- BH q-values in original order (second component returned by
`fdrcorrection`). -/
def fdrQvalues (ps : List ℚ) : List ℚ :=
  scatterBack (sortind ps) (qSorted ps) ps.length 0

/-! ### PairwiseComparator (`_perform_multcompare`) -/

/-- One pairwise comparison record.  The source first builds the dict
without a `pValue_FDR` key and attaches that key in a second pass over the
collected comparisons; here the first pass sets the field to 0 and the
second pass overwrites it. -/
structure Comparison where
  groupX : ℤ
  groupY : ℤ
  pValue : ℚ
  mean_diff : ℚ
  tStat : ℚ
  pValue_FDR : ℚ
deriving Repr, DecidableEq

/-- All pairs of list elements at positions i < j, modelling the double
loop `for i ... for j in range(i+1, ...)` over the unique classes. -/
def allPairs {α : Type} : List α → List (α × α)
  | [] => []
  | a :: rest => rest.map (fun b => (a, b)) ++ allPairs rest

/-- Values of one column belonging to one class, with NaN entries removed
(`var_data[classes == cls]` followed by the NaN mask). -/
def classValues (col : List Cell) (classes : List ℤ) (cls : ℤ) : List ℚ :=
  ((col.zip classes).filter (fun vc => vc.2 = cls)).filterMap Prod.fst

/-- First pass of `_perform_multcompare`: the collection loop over all
class pairs, before the FDR attachment.  The source wraps the t-test in
try/except and skips a pair on an exception; the oracle embedding is
total, so no comparison is lost that way. -/
def rawComparisons (ttest : TTest) (col : List Cell) (classes : List ℤ) :
    List Comparison :=
  (allPairs (npUnique classes)).filterMap (fun pr =>
    if (classValues col classes pr.1).length < 2 ∨
        (classValues col classes pr.2).length < 2 then none
    else
      some { groupX := pr.1, groupY := pr.2,
             pValue := ((ttest (classValues col classes pr.1)
               (classValues col classes pr.2)).2).getD 1,
             mean_diff := listMean (classValues col classes pr.1) -
               listMean (classValues col classes pr.2),
             tStat := ((ttest (classValues col classes pr.1)
               (classValues col classes pr.2)).1).getD 0,
             pValue_FDR := 0 })

/-- Second pass of `_perform_multcompare`: BH correction over the
collected p-values of this variable only, attached to each record. -/
def attachFdr (comparisons : List Comparison) : List Comparison :=
  if comparisons.isEmpty then comparisons
  else
    comparisons.mapIdx (fun idx c =>
      { c with pValue_FDR :=
          (fdrQvalues (comparisons.map (fun x => x.pValue))).getD idx 0 })

/-- Pairwise comparisons for one variable (`_perform_multcompare`). -/
def performMultcompare (ttest : TTest) (col : List Cell) (classes : List ℤ) :
    List Comparison :=
  attachFdr (rawComparisons ttest col classes)

/-! ### DescriptiveStatsComputer (`_compute_global_stats`, `_compute_group_stats`) -/

/-- Sample standard deviation `np.std(xs, ddof=1)` through the square-root
oracle (every call site guards `len > 1`). -/
def npStdSample (sqrtF : SqrtFn) (xs : List ℚ) : ℚ :=
  sqrtF ((xs.map (fun x => (x - listMean xs) ^ 2)).sum / ((xs.length : ℚ) - 1))

/-- The six descriptive statistics of one column (one iteration of the
per-variable loop shared by the global and the group statistics). -/
structure VarStats6 where
  rsd : ℚ
  std : ℚ
  mean : ℚ
  range : ℚ
  min : ℚ
  max : ℚ
deriving Repr, DecidableEq

/-- Descriptive statistics of one list of cells: NaN filtering, the
all-zero fallback for an empty remainder, the single-value guard on STD
and the zero-mean guard on RSD. -/
def statsOfColumn (sqrtF : SqrtFn) (col : List Cell) : VarStats6 :=
  let clean := col.filterMap id
  if clean.length = 0 then ⟨0, 0, 0, 0, 0, 0⟩
  else
    let m := listMean clean
    let sd := if clean.length > 1 then npStdSample sqrtF clean else 0
    let rsd := if m ≠ 0 then sd / m * 100 else 0
    ⟨rsd, sd, m, listMax clean - listMin clean, listMin clean, listMax clean⟩

/-- Variable name with the bounds check of the results-table loop
(`var_names[i] if var_names and i < len(var_names) else ...`). -/
def varNameChecked (vn : Option (List String)) (i : ℕ) : String :=
  match vn with
  | some l => if i < l.length then l.getD i "" else "Variable_" ++ toString (i + 1)
  | none => "Variable_" ++ toString (i + 1)

/-- Variable name without a bounds check (`var_names[i] if var_names else
...`), as used by the flattening loop and the boxplot summarizer. -/
def varNameUnchecked (vn : Option (List String)) (i : ℕ) : String :=
  match vn with
  | some l => l.getD i ""
  | none => "Variable_" ++ toString (i + 1)

/-- The six parallel per-variable arrays of the descriptive statistics. -/
structure StatsArrays where
  RSD : List ℚ
  STD : List ℚ
  MEAN : List ℚ
  RANGE : List ℚ
  MIN : List ℚ
  MAX : List ℚ
deriving Repr, DecidableEq

/-- Global statistics bundle (`_compute_global_stats`): the variable-name
list (dict key `variables` in the source; that identifier is reserved in
Lean) plus the six arrays. -/
structure GlobalStats where
  varList : List String
  arrays : StatsArrays
deriving Repr, DecidableEq

/-- Assemble the six parallel arrays from per-column records. -/
def arraysOf (recs : List VarStats6) : StatsArrays :=
  { RSD := recs.map (fun r => r.rsd),
    STD := recs.map (fun r => r.std),
    MEAN := recs.map (fun r => r.mean),
    RANGE := recs.map (fun r => r.range),
    MIN := recs.map (fun r => r.min),
    MAX := recs.map (fun r => r.max) }

/-- Global descriptive statistics over all columns. -/
def computeGlobalStats (sqrtF : SqrtFn) (data : List (List Cell))
    (varNames : Option (List String)) : GlobalStats :=
  { varList := (List.range data.length).map (fun i => varNameUnchecked varNames i),
    arrays := arraysOf (data.map (statsOfColumn sqrtF)) }

/-- Cells of one column restricted to the rows of one class (NaN entries
kept; `statsOfColumn` filters them as the source does inside the loop). -/
def groupColumn (col : List Cell) (classes : List ℤ) (cls : ℤ) : List Cell :=
  ((col.zip classes).filter (fun vc => vc.2 = cls)).map Prod.fst

/-- Per-group descriptive statistics (`_compute_group_stats`), keyed by
the integer class label (the source key is the string `Group{label}`). -/
def computeGroupStats (sqrtF : SqrtFn) (data : List (List Cell))
    (classes : List ℤ) : List (ℤ × StatsArrays) :=
  (npUnique classes).map (fun cls =>
    (cls, arraysOf (data.map (fun col => statsOfColumn sqrtF (groupColumn col classes cls)))))

/-! ### BoxplotSummarizer (`_compute_boxplots_per_group`) -/

/-- Boxplot record of one group for one variable. -/
structure BoxRec where
  min : ℚ
  q1 : ℚ
  median : ℚ
  q3 : ℚ
  max : ℚ
  values : List ℚ
  n : ℕ
deriving Repr, DecidableEq

/-- Linear-interpolation percentile of numpy (`np.percentile` default
method) at q percent, over the ascending sorted copy of the data. -/
def npPercentile (xs : List ℚ) (q : ℚ) : ℚ :=
  let s := List.insertionSort (fun a b : ℚ => a ≤ b) xs
  let h : ℚ := ((s.length : ℚ) - 1) * q / 100
  let lo : ℕ := (⌊h⌋).toNat
  let lov := s.getD lo 0
  let hiv := s.getD (lo + 1) lov
  lov + (h - (⌊h⌋ : ℚ)) * (hiv - lov)

/-- Boxplot records of every group for one variable, keyed by the integer
class label (source key `Group{label}`): groups with no valid value are
skipped, a single-value group collapses all five summary fields to that
value, and otherwise the 1.5 IQR whisker rule is applied clipped to the
observed range. -/
def boxGroupsOfVar (col : List Cell) (classes : List ℤ) : List (ℤ × BoxRec) :=
  (npUnique classes).filterMap (fun cls =>
    let clsData := ((col.zip classes).filter (fun vc => vc.2 = cls)).filterMap Prod.fst
    if clsData.length = 0 then none
    else if clsData.length = 1 then
      let v := clsData.headD 0
      some (cls, { min := v, q1 := v, median := v, q3 := v, max := v,
                   values := [v], n := 1 })
    else
      let q1 := npPercentile clsData 25
      let med := npPercentile clsData 50
      let q3 := npPercentile clsData 75
      let iqr := q3 - q1
      let lower := Max.max (listMin clsData) (q1 - 3/2 * iqr)
      let upper := Min.min (listMax clsData) (q3 + 3/2 * iqr)
      some (cls, { min := lower, q1 := q1, median := med, q3 := q3, max := upper,
                   values := clsData, n := clsData.length }))

/-- Shared y-axis bounds of one boxplot chart. -/
structure YLimits where
  min : ℚ
  max : ℚ
deriving Repr, DecidableEq

/-- Boxplot bundle of one selected variable. -/
structure VarBoxplot where
  variable_name : String
  groups : List (ℤ × BoxRec)
  y_limits : YLimits
deriving Repr, DecidableEq

/-- Boxplot summaries for the selected variable indices
(`_compute_boxplots_per_group`), keyed by the string `variable_{index}`
with the zero-based column index. -/
def computeBoxplotsPerGroup (data : List (List Cell)) (classes : List ℤ)
    (varNames : Option (List String)) (varIndices : List ℕ) :
    List (String × VarBoxplot) :=
  varIndices.map (fun varIdx =>
    let groups := boxGroupsOfVar (data.getD varIdx []) classes
    let allValues := (groups.map (fun g => g.2.values)).flatten
    let yl :=
      if allValues.length > 0 then
        let dmin := listMin allValues
        let dmax := listMax allValues
        { min := if dmin > 0 then dmin * 3/4 else dmin * 5/4,
          max := if dmax > 0 then dmax * 5/4 else dmax * 3/4 : YLimits }
      else { min := 0, max := 1 }
    ("variable_" ++ toString varIdx,
     { variable_name := varNameUnchecked varNames varIdx,
       groups := groups, y_limits := yl }))

/-! ### AnovaAnalyzer.analyze -/

/-- Pair each retained (non-NaN) value of a column with its class label,
modelling the `var_clean` / `class_clean` masking step of `analyze`. -/
def cleanPairs (col : List Cell) (classes : List ℤ) : List (ℚ × ℤ) :=
  (col.zip classes).filterMap (fun vc => (vc.1).map (fun v => (v, vc.2)))

/-- Output of one iteration of the per-variable loop of `analyze`. -/
structure PerVar where
  p : ℚ
  f : ℚ
  effect : ℚ
  multicomp : List Comparison
deriving Repr, DecidableEq

/-- One iteration of the per-variable loop of `analyze`: degenerate
fallback, F-test with NaN sentinels, eta-squared effect size, and the
pairwise comparisons. -/
def analyzeVar (fOneway : FOneway) (ttest : TTest) (col : List Cell)
    (classes : List ℤ) : PerVar :=
  let pairs := cleanPairs col classes
  let classClean := pairs.map Prod.snd
  if (npUnique classClean).length < 2 then
    { p := 1, f := 0, effect := 0, multicomp := [] }
  else
    let groups := (npUnique classClean).map
      (fun cls => (pairs.filter (fun pr => pr.2 = cls)).map Prod.fst)
    let fp := fOneway groups
    let varClean := pairs.map Prod.fst
    let grand := listMean varClean
    let ssBetween := (groups.map (fun g => (g.length : ℚ) * (listMean g - grand) ^ 2)).sum
    let ssTotal := (varClean.map (fun x => (x - grand) ^ 2)).sum
    { p := (fp.2).getD 1,
      f := (fp.1).getD 0,
      effect := if ssTotal > 0 then ssBetween / ssTotal * 100 else 0,
      multicomp := performMultcompare ttest col classes }

/-- One row of the results table. -/
structure VarRow where
  varName : String
  pValue : ℚ
  fdr : ℚ
  bonferroni : ℚ
  benjamini : Bool
  effectSize : ℚ
  fStat : ℚ
deriving Repr, DecidableEq

/-- One row of the flattened multicomparison table: the 1-based source
variable index, the variable name, and the comparison record (the source
spreads the comparison fields into a flat dict; the nesting here is a
field-for-field isomorphic packaging). -/
structure MultiRow where
  variableIndex : ℕ
  varName : String
  comp : Comparison
deriving Repr, DecidableEq

/-- Selection of significant variable indices by plot-option policy
(`_get_significant_vars`). -/
def getSignificantVars (fdrThreshold : ℚ) (results : List VarRow)
    (plotOption : ℤ) (benjSig : List Bool) : List ℕ :=
  if plotOption = 0 then []
  else if plotOption = 1 then
    (results.mapIdx (fun i r => (i, r))).filterMap
      (fun pr => if pr.2.pValue ≤ 1/20 then some pr.1 else none)
  else if plotOption = 2 then
    (results.mapIdx (fun i r => (i, r))).filterMap
      (fun pr => if pr.2.bonferroni ≤ fdrThreshold then some pr.1 else none)
  else if plotOption = 3 then
    (results.mapIdx (fun i r => (i, r))).filterMap
      (fun pr => if benjSig.getD pr.1 false then some pr.1 else none)
  else List.range results.length

/-- Overview data for client-side plotting. -/
structure Overview where
  p_values_sorted : List ℚ
  benjamini_indices : List ℕ
  bonferroni_indices : List ℕ
  bonferroni_threshold : ℚ
  benjamini_threshold : ℚ
  nominal_threshold : ℚ
deriving Repr, DecidableEq

/-- Summary counts of the result bundle. -/
structure Summary where
  total_variables : ℕ
  benjamini_significant : ℕ
  bonferroni_significant : ℕ
  nominal_significant : ℕ
  num_groups : ℕ
deriving Repr, DecidableEq

/-- The assembled result bundle returned by `analyze`. -/
structure AnovaResult where
  results : List VarRow
  multicomparison : List MultiRow
  global_stats : GlobalStats
  group_stats : List (ℤ × StatsArrays)
  boxplot_data : List (String × VarBoxplot)
  overview_data : Overview
  summary : Summary
deriving Repr, DecidableEq

/-- The engine `AnovaAnalyzer.analyze`.  The design-label argument of the
source is carried through to nothing (it does not appear in the returned
bundle) and is omitted here. -/
def analyze (sqrtF : SqrtFn) (fOneway : FOneway) (ttest : TTest)
    (fdrThreshold : ℚ) (data : List (List Cell)) (classes : List ℤ)
    (plotOption : ℤ) (varNames : Option (List String)) : AnovaResult :=
  let nVars := data.length
  let perVar := data.map (fun col => analyzeVar fOneway ttest col classes)
  let pValues := perVar.map (fun v => v.p)
  let fStatistics := perVar.map (fun v => v.f)
  let effectSizes := perVar.map (fun v => v.effect)
  let allMulticomparisons := perVar.map (fun v => v.multicomp)
  let bonferroniThreshold := fdrThreshold / (nVars : ℚ)
  let bonferroniSig := pValues.map (fun p => decide (p ≤ bonferroniThreshold))
  let benjaminiSig := fdrReject pValues fdrThreshold
  let fdrCorrected := fdrQvalues pValues
  let resultsTable := (List.range nVars).map (fun i =>
    { varName := varNameChecked varNames i,
      pValue := pValues.getD i 0,
      fdr := fdrCorrected.getD i 0,
      bonferroni := pValues.getD i 0 * (nVars : ℚ),
      benjamini := benjaminiSig.getD i false,
      effectSize := effectSizes.getD i 0,
      fStat := fStatistics.getD i 0 : VarRow })
  let significantVars := getSignificantVars fdrThreshold resultsTable plotOption benjaminiSig
  let boxplotData := computeBoxplotsPerGroup data classes varNames (significantVars.take 4)
  let benjThreshold :=
    if benjaminiSig.any id then
      (((pValues.zip benjaminiSig).filterMap
        (fun pb => if pb.2 then some pb.1 else none)).max?).getD fdrThreshold
    else fdrThreshold
  let overview : Overview :=
    { p_values_sorted := psSorted pValues,
      benjamini_indices := (List.range nVars).filter
        (fun k => benjaminiSig.getD ((sortind pValues).getD k 0) false),
      bonferroni_indices := (List.range nVars).filter
        (fun k => bonferroniSig.getD ((sortind pValues).getD k 0) false),
      bonferroni_threshold := bonferroniThreshold,
      benjamini_threshold := benjThreshold,
      nominal_threshold := 1/20 }
  let multicompTable := (allMulticomparisons.mapIdx (fun varIdx lst =>
    lst.map (fun comp =>
      { variableIndex := varIdx + 1,
        varName := varNameUnchecked varNames varIdx,
        comp := comp : MultiRow }))).flatten
  { results := resultsTable,
    multicomparison := multicompTable,
    global_stats := computeGlobalStats sqrtF data varNames,
    group_stats := computeGroupStats sqrtF data classes,
    boxplot_data := boxplotData,
    overview_data := overview,
    summary :=
      { total_variables := nVars,
        benjamini_significant := (benjaminiSig.filter id).length,
        bonferroni_significant := (bonferroniSig.filter id).length,
        nominal_significant := (pValues.filter (fun p => p ≤ 1/20)).length,
        num_groups := (npUnique classes).length } }

/-! ### Structural validation of the ingestion collaborator -/

/-- The structural validation performed by `parse_uploaded_file`
(backend/utils/file_parser.py) after building the matrix and the label
vector, before the engine is invoked: minimum 3 samples, minimum 2
variables, minimum 2 distinct groups, each failure raising a descriptive
ValueError.  Rows of the matrix and labels are aligned, so the sample
count is the label count. -/
def validateParsed (data : List (List Cell)) (classes : List ℤ) :
    Except String Unit :=
  if classes.length < 3 then
    Except.error "Insufficient samples (minimum 3 required)"
  else if data.length < 2 then
    Except.error "Insufficient variables (minimum 2 required)"
  else if (npUnique classes).length < 2 then
    Except.error "Insufficient groups (minimum 2 required)"
  else Except.ok ()

/-- The analysis request pipeline of the analyze endpoint (app.py):
parse-time structural validation, then the engine. -/
def runAnalysis (sqrtF : SqrtFn) (fOneway : FOneway) (ttest : TTest)
    (fdrThreshold : ℚ) (data : List (List Cell)) (classes : List ℤ)
    (plotOption : ℤ) (varNames : Option (List String)) :
    Except String AnovaResult :=
  match validateParsed data classes with
  | Except.error e => Except.error e
  | Except.ok _ =>
      Except.ok (analyze sqrtF fOneway ttest fdrThreshold data classes plotOption varNames)

/-! ## Shared lemmas -/

lemma suffixMin_chain (l : List ℚ) :
    List.Chain' (fun a b => a ≤ b) (suffixMin l) := by
  induction l with
  | nil => simp [suffixMin]
  | cons a rest ih =>
    cases h : suffixMin rest with
    | nil => simp [suffixMin, h]
    | cons b tl =>
      rw [suffixMin, h]
      rw [h] at ih
      exact List.Chain'.cons (min_le_right a b) ih

lemma sorted_suffixMin (l : List ℚ) :
    List.Sorted (fun a b => a ≤ b) (suffixMin l) :=
  List.chain'_iff_pairwise.mp (suffixMin_chain l)

lemma sorted_clip1 {l : List ℚ} (h : List.Sorted (fun a b => a ≤ b) l) :
    List.Sorted (fun a b => a ≤ b) (clip1 l) := by
  unfold clip1
  rw [List.Sorted, List.pairwise_map]
  refine h.imp (fun hab => ?_)
  split_ifs with h1 h2 <;> linarith

/-! ## C5 -/

/-- C5: the BH q-values produced by the correction, read in ascending
nominal p-value order (the order in which the running minimum from rank n
down to rank 1 of p(i)·n/i is computed, before scattering back to the
original variable positions), form a monotonically nondecreasing list. -/
theorem c5_bh_qvalues_monotone (ps : List ℚ) :
    List.Sorted (fun a b => a ≤ b) (qSorted ps) :=
  sorted_clip1 (sorted_suffixMin (qRaw ps))

/-! ## Lemmas about the BH embedding needed for C4 -/

lemma length_sortedPairs (ps : List ℚ) : (sortedPairs ps).length = ps.length := by
  unfold sortedPairs
  rw [(List.perm_insertionSort pairLe _).length_eq]
  simp

lemma length_sortind (ps : List ℚ) : (sortind ps).length = ps.length := by
  simp [sortind, length_sortedPairs]

lemma length_psSorted (ps : List ℚ) : (psSorted ps).length = ps.length := by
  simp [psSorted, length_sortedPairs]

lemma sortind_nodup (ps : List ℚ) : (sortind ps).Nodup := by
  have hperm : ((sortedPairs ps).map Prod.fst).Perm
      (((List.range ps.length).zip ps).map Prod.fst) :=
    (List.perm_insertionSort pairLe _).map Prod.fst
  rw [List.map_fst_zip _ _ (by simp)] at hperm
  exact (hperm.nodup_iff).mpr (List.nodup_range _)

lemma length_rejectBase (ps : List ℚ) (alpha : ℚ) :
    (rejectBase ps alpha).length = ps.length := by
  simp [rejectBase, length_psSorted]

lemma length_stepUpFill (bs : List Bool) : (stepUpFill bs).length = bs.length := by
  unfold stepUpFill
  split <;> simp

lemma length_rejectSorted (ps : List ℚ) (alpha : ℚ) :
    (rejectSorted ps alpha).length = ps.length := by
  rw [rejectSorted, length_stepUpFill, length_rejectBase]

lemma length_scatterBack {α : Type} (ind : List ℕ) (vals : List α) (n : ℕ)
    (dflt : α) : (scatterBack ind vals n dflt).length = n := by
  simp [scatterBack]

lemma find_zip_eq {α : Type} (i : ℕ) :
    ∀ (ks : List ℕ) (vs : List α) (k : ℕ) (hnd : ks.Nodup)
      (hk : k < ks.length) (hk2 : k < vs.length),
      ks.get ⟨k, hk⟩ = i →
      (ks.zip vs).find? (fun q => q.1 == i) = some (i, vs.get ⟨k, hk2⟩) := by
  intro ks
  induction ks with
  | nil => intro vs k hnd hk; exact absurd hk (by simp)
  | cons a ks2 ih =>
    intro vs k hnd hk hk2 hki
    cases vs with
    | nil => exact absurd hk2 (by simp)
    | cons b vs2 =>
      cases k with
      | zero =>
        simp only [List.get] at hki
        subst hki
        simp [List.find?_cons_of_pos]
      | succ k2 =>
        have hik2 : i ∈ ks2 := by
          rw [← hki]; exact List.get_mem _ _ _
        have hne : (a == i) = false := by
          rw [beq_eq_false_iff_ne]
          intro hai
          exact (List.nodup_cons.mp hnd).1 (hai ▸ hik2)
        rw [List.zip_cons_cons, List.find?_cons_of_neg _ (by simp [hne])]
        exact ih vs2 k2 (List.nodup_cons.mp hnd).2 (Nat.lt_of_succ_lt_succ hk)
          (Nat.lt_of_succ_lt_succ hk2) hki

/-! ## C4 -/

/-- C4: every variable flagged Bonferroni-significant (nominal p-value at
most alpha divided by the number of variables) is also flagged significant
by the embedded Benjamini-Hochberg step-up procedure run at the same
(nonnegative) alpha over the same p-value vector. -/
theorem c4_bonferroni_subset_bh (ps : List ℚ) (alpha : ℚ) (halpha : 0 ≤ alpha)
    (i : ℕ) (hi : i < ps.length)
    (hbon : ps.get ⟨i, hi⟩ ≤ alpha / ps.length) :
    (fdrReject ps alpha).getD i false = true := by
  have hn : 0 < ps.length := Nat.lt_of_le_of_lt (Nat.zero_le i) hi
  have hnq : (0 : ℚ) < ps.length := by exact_mod_cast hn
  -- the pair (i, ps[i]) sits at some sorted position k
  have hzlen : ((List.range ps.length).zip ps).length = ps.length := by simp
  have hizlt : i < ((List.range ps.length).zip ps).length := by omega
  have hmemz : (i, ps.get ⟨i, hi⟩) ∈ (List.range ps.length).zip ps := by
    have hgz : ((List.range ps.length).zip ps).get ⟨i, hizlt⟩ = (i, ps.get ⟨i, hi⟩) := by
      simp [List.get_eq_getElem, List.getElem_zip, List.getElem_range]
    rw [← hgz]
    exact List.get_mem _ _ _
  have hmems : (i, ps.get ⟨i, hi⟩) ∈ sortedPairs ps :=
    ((List.perm_insertionSort pairLe _).mem_iff).mpr hmemz
  obtain ⟨k, hk, hkeq⟩ := List.mem_iff_getElem.mp hmems
  have hkn : k < ps.length := by rw [← length_sortedPairs ps]; exact hk
  -- the base step-up comparison holds at position k
  have hkb : k < (rejectBase ps alpha).length := by rw [length_rejectBase]; exact hkn
  have hks : k < (psSorted ps).length := by rw [length_psSorted]; exact hkn
  have hpsk : (psSorted ps).get ⟨k, hks⟩ = ps.get ⟨i, hi⟩ := by
    simp only [psSorted, List.get_eq_getElem, List.getElem_map]
    rw [hkeq]
    rfl
  have hbase : (rejectBase ps alpha).get ⟨k, hkb⟩ = true := by
    simp only [rejectBase, List.get_eq_getElem, List.getElem_mapIdx]
    rw [decide_eq_true_iff]
    have hpk : (psSorted ps)[k] = ps.get ⟨i, hi⟩ := hpsk
    rw [hpk]
    have hstep : alpha / ps.length ≤ ecdffactor ps.length k * alpha := by
      unfold ecdffactor
      rw [div_mul_eq_mul_div]
      have h1k : (1 : ℚ) ≤ (k : ℚ) + 1 := by
        have : (0 : ℚ) ≤ (k : ℚ) := by exact_mod_cast Nat.zero_le k
        linarith
      have : alpha ≤ ((k : ℚ) + 1) * alpha := le_mul_of_one_le_left halpha h1k
      exact div_le_div_of_nonneg_right this hnq.le
    exact le_trans hbon hstep
  have hany : (rejectBase ps alpha).any id = true := by
    rw [List.any_eq_true]
    refine ⟨true, ?_, rfl⟩
    rw [← hbase]
    exact List.get_mem _ _ _
  -- the filled reject vector is true at position k
  have hkr : k < (rejectSorted ps alpha).length := by
    rw [length_rejectSorted]; exact hkn
  have hfinal : (rejectSorted ps alpha).get ⟨k, hkr⟩ = true := by
    have hrs : rejectSorted ps alpha =
        (rejectBase ps alpha).mapIdx
          (fun j b => decide (j < rejectmax (rejectBase ps alpha)) || b) := by
      rw [rejectSorted, stepUpFill, if_pos hany]
    simp only [hrs, List.get_eq_getElem, List.getElem_mapIdx]
    have hb : (rejectBase ps alpha)[k] = true := hbase
    rw [hb, Bool.or_true]
  -- scatter back to the original position i
  have hski : k < (sortind ps).length := by rw [length_sortind]; exact hkn
  have hsie : (sortind ps).get ⟨k, hski⟩ = i := by
    simp only [sortind, List.get_eq_getElem, List.getElem_map]
    rw [hkeq]
  have hlenf : (fdrReject ps alpha).length = ps.length := by
    simp [fdrReject, length_scatterBack]
  have hif : i < (fdrReject ps alpha).length := by omega
  rw [List.getD_eq_getElem _ _ hif]
  have hifr : i < (List.range ps.length).length := by simp [hn, hi]
  simp only [fdrReject, scatterBack, List.getElem_map, List.getElem_range]
  rw [find_zip_eq i (sortind ps) (rejectSorted ps alpha) k (sortind_nodup ps)
    hski hkr hsie]
  simpa using hfinal

/-- C4 witness: the concrete p-value vector [0.01, 0.5, 0.75] at alpha
0.05 has its first entry Bonferroni-significant and the BH flags of the
embedding mark it significant. -/
theorem c4_bonferroni_subset_bh_witness :
    (0 : ℚ) ≤ 1/20 ∧ (1/100 : ℚ) ≤ (1/20) / 3 ∧
    (fdrReject [1/100, 1/2, 3/4] (1/20)).getD 0 false = true :=
  ⟨by norm_num, by norm_num,
    c4_bonferroni_subset_bh [1/100, 1/2, 3/4] (1/20) (by norm_num) 0
      (by norm_num)
      (by show (1/100 : ℚ) ≤ (1/20) / ((3 : ℕ) : ℚ); norm_num)⟩

/-! ## Accessing the per-variable arrays of analyze -/

/-- The per-variable nominal p-values in input column order, exactly the
p-value array accumulated by the per-variable loop of `analyze`. -/
def pValuesOf (fw : FOneway) (tt : TTest) (data : List (List Cell))
    (classes : List ℤ) : List ℚ :=
  (data.map (fun col => analyzeVar fw tt col classes)).map (fun v => v.p)

lemma getD_proj {γ : Type} (data : List (List Cell)) (k : List Cell → γ)
    (proj : γ → ℚ) (i : ℕ) (hi : i < data.length) (d : ℚ) :
    ((data.map k).map proj).getD i d = proj (k (data.get ⟨i, hi⟩)) := by
  rw [List.getD_eq_getElem?_getD, List.getElem?_map, List.getElem?_map,
    List.getElem?_eq_getElem hi]
  rfl

lemma analyze_results_length (sqrtF : SqrtFn) (fw : FOneway) (tt : TTest)
    (alpha : ℚ) (data : List (List Cell)) (classes : List ℤ)
    (plotOption : ℤ) (vn : Option (List String)) :
    (analyze sqrtF fw tt alpha data classes plotOption vn).results.length = data.length := by
  simp [analyze]

lemma analyze_results_row (sqrtF : SqrtFn) (fw : FOneway) (tt : TTest)
    (alpha : ℚ) (data : List (List Cell)) (classes : List ℤ)
    (plotOption : ℤ) (vn : Option (List String)) (i : ℕ) (hi : i < data.length) :
    (analyze sqrtF fw tt alpha data classes plotOption vn).results[i]? =
      some { varName := varNameChecked vn i,
             pValue := (analyzeVar fw tt (data.get ⟨i, hi⟩) classes).p,
             fdr := (fdrQvalues (pValuesOf fw tt data classes)).getD i 0,
             bonferroni := (analyzeVar fw tt (data.get ⟨i, hi⟩) classes).p * (data.length : ℚ),
             benjamini := (fdrReject (pValuesOf fw tt data classes) alpha).getD i false,
             effectSize := (analyzeVar fw tt (data.get ⟨i, hi⟩) classes).effect,
             fStat := (analyzeVar fw tt (data.get ⟨i, hi⟩) classes).f } := by
  simp only [analyze, pValuesOf]
  rw [List.getElem?_map, List.getElem?_range hi]
  have hp := getD_proj data (fun col => analyzeVar fw tt col classes)
    (fun v => v.p) i hi 0
  have heff := getD_proj data (fun col => analyzeVar fw tt col classes)
    (fun v => v.effect) i hi 0
  have hf := getD_proj data (fun col => analyzeVar fw tt col classes)
    (fun v => v.f) i hi 0
  simp only [Option.map_some', hp, heff, hf]

/-! ## C2 -/

/-- C2: the `results` list of `analyze` has exactly one entry per input
column, and its i-th entry is built from the i-th input column's
per-variable numbers (nominal p, its BH q-value and BH flag at position i,
p times n as Bonferroni value, effect size, F-statistic), so the original
column order is preserved and no variable, degenerate ones included, is
dropped. -/
theorem c2_results_order (sqrtF : SqrtFn) (fw : FOneway) (tt : TTest)
    (alpha : ℚ) (data : List (List Cell)) (classes : List ℤ)
    (plotOption : ℤ) (vn : Option (List String)) (i : ℕ) (hi : i < data.length) :
    (analyze sqrtF fw tt alpha data classes plotOption vn).results.length = data.length ∧
    (analyze sqrtF fw tt alpha data classes plotOption vn).results[i]? =
      some { varName := varNameChecked vn i,
             pValue := (analyzeVar fw tt (data.get ⟨i, hi⟩) classes).p,
             fdr := (fdrQvalues (pValuesOf fw tt data classes)).getD i 0,
             bonferroni := (analyzeVar fw tt (data.get ⟨i, hi⟩) classes).p * (data.length : ℚ),
             benjamini := (fdrReject (pValuesOf fw tt data classes) alpha).getD i false,
             effectSize := (analyzeVar fw tt (data.get ⟨i, hi⟩) classes).effect,
             fStat := (analyzeVar fw tt (data.get ⟨i, hi⟩) classes).f } :=
  ⟨analyze_results_length sqrtF fw tt alpha data classes plotOption vn,
   analyze_results_row sqrtF fw tt alpha data classes plotOption vn i hi⟩

/-- C2 witness: a concrete two-column matrix on three samples in two
groups; the results list has two rows and row 0 is the row of column 0. -/
theorem c2_results_order_witness :
    0 < ([[some 1, some 2, some 3], [some 4, none, some 6]] : List (List Cell)).length ∧
    (analyze (fun q => q) (fun gs => (some 2, some (1/10)))
        (fun a b => (some 1, some (1/2))) (1/20)
        [[some 1, some 2, some 3], [some 4, none, some 6]] [1, 1, 2] 3 none).results.length =
      ([[some 1, some 2, some 3], [some 4, none, some 6]] : List (List Cell)).length := by
  refine ⟨by norm_num, ?_⟩
  exact (c2_results_order (fun q => q) (fun gs => (some 2, some (1/10)))
    (fun a b => (some 1, some (1/2))) (1/20)
    [[some 1, some 2, some 3], [some 4, none, some 6]] [1, 1, 2] 3 none 0
    (by norm_num)).1

/-! ## C7 -/

/-- C7: each results row reports as its Bonferroni value its own nominal
p-value multiplied by the number of variables, with no clamping, so
whenever a variable's nominal p-value exceeds 1/n its reported value
exceeds 1; the Bonferroni significance count, by contrast, compares the
nominal p-value against threshold divided by n. -/
theorem c7_bonferroni_value_unclamped (sqrtF : SqrtFn) (fw : FOneway)
    (tt : TTest) (alpha : ℚ) (data : List (List Cell)) (classes : List ℤ)
    (plotOption : ℤ) (vn : Option (List String)) :
    (∀ r ∈ (analyze sqrtF fw tt alpha data classes plotOption vn).results,
        r.bonferroni = r.pValue * (data.length : ℚ)) ∧
    ((analyze sqrtF fw tt alpha data classes plotOption vn).summary.bonferroni_significant =
      ((pValuesOf fw tt data classes).filter
        (fun p => p ≤ alpha / (data.length : ℚ))).length) ∧
    (∀ i, ∀ hi : i < data.length,
      1 / (data.length : ℚ) < (analyzeVar fw tt (data.get ⟨i, hi⟩) classes).p →
      1 < ((analyze sqrtF fw tt alpha data classes plotOption vn).results.getD i
        ⟨"", 0, 0, 0, false, 0, 0⟩).bonferroni) := by
  refine ⟨?_, ?_, ?_⟩
  · intro r hr
    simp only [analyze, List.mem_map, List.mem_range] at hr
    obtain ⟨j, hj, hrj⟩ := hr
    rw [← hrj]
  · simp only [analyze, pValuesOf, List.filter_map]
    simp [Function.comp_def]
  · intro i hi hp
    have hlen : (analyze sqrtF fw tt alpha data classes plotOption vn).results.length
        = data.length := by simp [analyze]
    have hil : i < (analyze sqrtF fw tt alpha data classes plotOption vn).results.length := by
      omega
    rw [List.getD_eq_getElem _ _ hil]
    have hrow : (analyze sqrtF fw tt alpha data classes plotOption vn).results[i].bonferroni
        = (analyzeVar fw tt (data.get ⟨i, hi⟩) classes).p * (data.length : ℚ) := by
      simp only [analyze, List.getElem_map, List.getElem_range]
      exact congrArg (fun x => x * ((data.length : ℕ) : ℚ))
        (getD_proj data (fun col => analyzeVar fw tt col classes) (fun v => v.p) i hi 0)
    rw [hrow]
    have hn : (0 : ℚ) < (data.length : ℚ) := by
      have : 0 < data.length := Nat.lt_of_le_of_lt (Nat.zero_le i) hi
      exact_mod_cast this
    have := mul_lt_mul_of_pos_right hp hn
    rwa [one_div, inv_mul_cancel₀ (ne_of_gt hn)] at this

/-- C7 witness: on a concrete 2-column matrix whose single sample forms
one class, both variables are degenerate with nominal p 1 above 1/2, and
the reported Bonferroni value of row 0 exceeds 1. -/
theorem c7_bonferroni_value_unclamped_witness :
    1 / (([[some 1], [some 1]] : List (List Cell)).length : ℚ) <
      (analyzeVar (fun _ => (none, none)) (fun _ _ => (none, none))
        (([[some 1], [some 1]] : List (List Cell)).get ⟨0, by norm_num⟩) [5]).p ∧
    1 < ((analyze (fun q => q) (fun _ => (none, none)) (fun _ _ => (none, none))
        (1/20) [[some 1], [some 1]] [5] 3 none).results.getD 0
        ⟨"", 0, 0, 0, false, 0, 0⟩).bonferroni := by
  have hp : (analyzeVar (fun _ => (none, none)) (fun _ _ => (none, none))
      (([[some 1], [some 1]] : List (List Cell)).get ⟨0, by norm_num⟩) [5]).p = 1 := by
    decide
  have hhalf : 1 / (([[some 1], [some 1]] : List (List Cell)).length : ℚ) <
      (analyzeVar (fun _ => (none, none)) (fun _ _ => (none, none))
        (([[some 1], [some 1]] : List (List Cell)).get ⟨0, by norm_num⟩) [5]).p := by
    rw [hp]
    norm_num
  exact ⟨hhalf,
    (c7_bonferroni_value_unclamped (fun q => q) (fun _ => (none, none))
      (fun _ _ => (none, none)) (1/20) [[some 1], [some 1]] [5] 3 none).2.2 0
      (by norm_num) hhalf⟩

/-! ## C1 -/

/-- C1: a variable whose valid samples span fewer than two distinct class
labels yields the neutral row values p 1, F 0, effect size 0, contributes
no rows to the flattened pairwise table, and the sweep still produces one
row per column; moreover with an F-test oracle that always yields NaN the
same neutral p and F sentinels are emitted for every column. -/
theorem c1_degenerate_neutral (sqrtF : SqrtFn) (fw : FOneway) (tt : TTest)
    (alpha : ℚ) (data : List (List Cell)) (classes : List ℤ)
    (plotOption : ℤ) (vn : Option (List String)) (i : ℕ)
    (hi : i < data.length)
    (hdeg : (npUnique ((cleanPairs (data.get ⟨i, hi⟩) classes).map Prod.snd)).length < 2) :
    (analyze sqrtF fw tt alpha data classes plotOption vn).results.length = data.length ∧
    ((analyze sqrtF fw tt alpha data classes plotOption vn).results[i]?.map
      (fun r => (r.pValue, r.fStat, r.effectSize))) = some (1, 0, 0) ∧
    (∀ r ∈ (analyze sqrtF fw tt alpha data classes plotOption vn).multicomparison,
      r.variableIndex ≠ i + 1) ∧
    (∀ fw2 : FOneway, (∀ gs, fw2 gs = (none, none)) → ∀ col,
      (analyzeVar fw2 tt col classes).p = 1 ∧ (analyzeVar fw2 tt col classes).f = 0) := by
  have hAV : analyzeVar fw tt (data.get ⟨i, hi⟩) classes =
      { p := 1, f := 0, effect := 0, multicomp := [] } := by
    simp only [analyzeVar]
    rw [if_pos hdeg]
  refine ⟨by simp [analyze], ?_, ?_, ?_⟩
  · have h2 := analyze_results_row sqrtF fw tt alpha data classes plotOption vn i hi
    rw [h2, hAV]
    rfl
  · intro r hr hidx
    simp only [analyze, List.mem_flatten] at hr
    obtain ⟨lst, hlst, hrmem⟩ := hr
    rw [List.mem_mapIdx] at hlst
    obtain ⟨j, hj, hlstj⟩ := hlst
    rw [← hlstj] at hrmem
    simp only [List.mem_map] at hrmem
    obtain ⟨comp, hcomp, hrcomp⟩ := hrmem
    have hji : j = i := by
      have : r.variableIndex = j + 1 := by rw [← hrcomp]
      omega
    subst hji
    have hjlen : j < data.length := by
      simpa using hj
    have hmc : ((data.map (fun col => analyzeVar fw tt col classes)).map
          (fun v => v.multicomp))[j] = (analyzeVar fw tt (data.get ⟨j, hjlen⟩) classes).multicomp := by
      simp [List.getElem_map, List.get_eq_getElem]
    rw [hmc] at hcomp
    rw [hAV] at hcomp
    exact absurd hcomp (List.not_mem_nil comp)
  · intro fw2 hfw2 col
    simp only [analyzeVar]
    split
    · exact ⟨rfl, rfl⟩
    · rw [hfw2]
      exact ⟨rfl, rfl⟩

/-- C1 witness: a concrete 2-column matrix over one sample in a single
class is degenerate in column 0 and yields the neutral triple there. -/
theorem c1_degenerate_neutral_witness :
    (npUnique ((cleanPairs (([[some 1], [some 1]] : List (List Cell)).get ⟨0, by norm_num⟩)
      [5]).map Prod.snd)).length < 2 ∧
    ((analyze (fun q => q) (fun _ => (none, none)) (fun _ _ => (none, none))
      (1/20) [[some 1], [some 1]] [5] 3 none).results[0]?.map
      (fun r => (r.pValue, r.fStat, r.effectSize))) = some (1, 0, 0) :=
  ⟨by decide,
    (c1_degenerate_neutral (fun q => q) (fun _ => (none, none))
      (fun _ _ => (none, none)) (1/20) [[some 1], [some 1]] [5] 3 none 0
      (by norm_num) (by decide)).2.1⟩

/-! ## C8 -/

/-- C8: when the parsed input has fewer than two distinct class labels
overall, the analysis pipeline aborts with a descriptive structural error
before the engine runs (the check sits in the ingestion validation), and
no result bundle is produced. -/
theorem c8_structural_abort (sqrtF : SqrtFn) (fw : FOneway) (tt : TTest)
    (alpha : ℚ) (data : List (List Cell)) (classes : List ℤ)
    (plotOption : ℤ) (vn : Option (List String))
    (hgroups : (npUnique classes).length < 2) :
    ∃ e, runAnalysis sqrtF fw tt alpha data classes plotOption vn = Except.error e := by
  unfold runAnalysis validateParsed
  by_cases h1 : classes.length < 3
  · rw [if_pos h1]
    exact ⟨_, rfl⟩
  · rw [if_neg h1]
    by_cases h2 : data.length < 2
    · rw [if_pos h2]
      exact ⟨_, rfl⟩
    · rw [if_neg h2, if_pos hgroups]
      exact ⟨_, rfl⟩

/-- C8 witness: three samples all in one class abort the pipeline. -/
theorem c8_structural_abort_witness :
    (npUnique [7, 7, 7]).length < 2 ∧
    ∃ e, runAnalysis (fun q => q) (fun _ => (none, none)) (fun _ _ => (none, none))
      (1/20) [[some 1, some 2, some 3], [some 4, some 5, some 6]] [7, 7, 7] 3 none =
      Except.error e :=
  ⟨by decide,
    c8_structural_abort (fun q => q) (fun _ => (none, none)) (fun _ _ => (none, none))
      (1/20) [[some 1, some 2, some 3], [some 4, some 5, some 6]] [7, 7, 7] 3 none
      (by decide)⟩

/-! ## C9 -/

lemma globalStats_proj (sqrtF : SqrtFn) (data : List (List Cell))
    (proj : VarStats6 → ℚ) (i : ℕ) (hi : i < data.length) :
    ((data.map (statsOfColumn sqrtF)).map proj)[i]? =
      some (proj (statsOfColumn sqrtF (data.get ⟨i, hi⟩))) := by
  rw [List.getElem?_map, List.getElem?_map, List.getElem?_eq_getElem hi]
  rfl

/-- C9: in the global statistics, a variable with no valid value gets 0
for all six statistics; otherwise the STD is the square root of the sum
of squared deviations divided by n minus 1 when more than one valid value
remains and 0 when exactly one remains, and the RSD is STD/MEAN times 100
with a 0 fallback when the mean is 0. -/
theorem c9_global_stats (sqrtF : SqrtFn) (data : List (List Cell))
    (vn : Option (List String)) (i : ℕ) (hi : i < data.length) :
    ((data.get ⟨i, hi⟩).filterMap id = [] →
      (computeGlobalStats sqrtF data vn).arrays.MEAN[i]? = some 0 ∧
      (computeGlobalStats sqrtF data vn).arrays.STD[i]? = some 0 ∧
      (computeGlobalStats sqrtF data vn).arrays.RSD[i]? = some 0 ∧
      (computeGlobalStats sqrtF data vn).arrays.RANGE[i]? = some 0 ∧
      (computeGlobalStats sqrtF data vn).arrays.MIN[i]? = some 0 ∧
      (computeGlobalStats sqrtF data vn).arrays.MAX[i]? = some 0) ∧
    ((data.get ⟨i, hi⟩).filterMap id ≠ [] →
      (computeGlobalStats sqrtF data vn).arrays.STD[i]? =
        some (if ((data.get ⟨i, hi⟩).filterMap id).length > 1 then
          sqrtF ((((data.get ⟨i, hi⟩).filterMap id).map
            (fun x => (x - listMean ((data.get ⟨i, hi⟩).filterMap id)) ^ 2)).sum /
            ((((data.get ⟨i, hi⟩).filterMap id).length : ℚ) - 1))
          else 0)) ∧
    ((data.get ⟨i, hi⟩).filterMap id ≠ [] →
      listMean ((data.get ⟨i, hi⟩).filterMap id) = 0 →
      (computeGlobalStats sqrtF data vn).arrays.RSD[i]? = some 0) ∧
    ((data.get ⟨i, hi⟩).filterMap id ≠ [] →
      listMean ((data.get ⟨i, hi⟩).filterMap id) ≠ 0 →
      (computeGlobalStats sqrtF data vn).arrays.RSD[i]? =
        some ((if ((data.get ⟨i, hi⟩).filterMap id).length > 1 then
            npStdSample sqrtF ((data.get ⟨i, hi⟩).filterMap id) else 0) /
          listMean ((data.get ⟨i, hi⟩).filterMap id) * 100)) := by
  refine ⟨?_, ?_, ?_, ?_⟩
  · intro hclean
    have h0 : statsOfColumn sqrtF (data.get ⟨i, hi⟩) = ⟨0, 0, 0, 0, 0, 0⟩ := by
      simp only [statsOfColumn]
      rw [hclean]
      rfl
    simp only [computeGlobalStats, arraysOf]
    rw [globalStats_proj sqrtF data (fun r => r.mean) i hi,
      globalStats_proj sqrtF data (fun r => r.std) i hi,
      globalStats_proj sqrtF data (fun r => r.rsd) i hi,
      globalStats_proj sqrtF data (fun r => r.range) i hi,
      globalStats_proj sqrtF data (fun r => r.min) i hi,
      globalStats_proj sqrtF data (fun r => r.max) i hi, h0]
    exact ⟨rfl, rfl, rfl, rfl, rfl, rfl⟩
  · intro hclean
    have hne : ¬(((data.get ⟨i, hi⟩).filterMap id).length = 0) := by
      simpa [List.length_eq_zero] using hclean
    simp only [computeGlobalStats, arraysOf]
    rw [globalStats_proj sqrtF data (fun r => r.std) i hi]
    simp only [statsOfColumn, if_neg hne, npStdSample]
  · intro hclean hmean
    simp only [List.get_eq_getElem] at hmean
    have hne : ¬((List.filterMap id data[i]).length = 0) := by
      simpa [List.length_eq_zero, List.get_eq_getElem] using hclean
    simp only [computeGlobalStats, arraysOf]
    rw [globalStats_proj sqrtF data (fun r => r.rsd) i hi]
    simp only [List.get_eq_getElem, statsOfColumn, if_neg hne]
    simp [hmean]
  · intro hclean hmean
    simp only [List.get_eq_getElem] at hmean
    have hne : ¬((List.filterMap id data[i]).length = 0) := by
      simpa [List.length_eq_zero, List.get_eq_getElem] using hclean
    simp only [computeGlobalStats, arraysOf]
    rw [globalStats_proj sqrtF data (fun r => r.rsd) i hi]
    simp only [List.get_eq_getElem, statsOfColumn, if_neg hne]
    rw [if_pos hmean]

/-- C9 witness: on a concrete matrix whose first column holds only NaN,
the first MEAN entry is 0; the second column has one valid value and its
STD entry is 0. -/
theorem c9_global_stats_witness :
    (([[none], [some 3]] : List (List Cell)).get ⟨0, by norm_num⟩).filterMap id = [] ∧
    (computeGlobalStats (fun q => q) [[none], [some 3]] none).arrays.MEAN[0]? = some 0 ∧
    (([[none], [some 3]] : List (List Cell)).get ⟨1, by norm_num⟩).filterMap id ≠ [] ∧
    (computeGlobalStats (fun q => q) [[none], [some 3]] none).arrays.STD[1]? = some 0 := by
  refine ⟨by decide, ?_, by decide, ?_⟩
  · exact ((c9_global_stats (fun q => q) [[none], [some 3]] none 0 (by norm_num)).1
      (by decide)).1
  · have h := (c9_global_stats (fun q => q) [[none], [some 3]] none 1
      (by norm_num)).2.1 (by decide)
    rw [h]
    decide

/-! ## C6 -/

/-- C6: in the boxplot summary of a variable, a group with exactly one
valid value produces the record whose displayed min, Q1, median, Q3 and
displayed max all equal that value with sample count 1, while a group
with zero valid values gets no record at all. -/
theorem c6_boxplot_single_and_skip (col : List Cell) (classes : List ℤ)
    (cls : ℤ) (hcls : cls ∈ npUnique classes) :
    (∀ v : ℚ,
      ((col.zip classes).filter (fun vc => vc.2 = cls)).filterMap Prod.fst = [v] →
      (cls, { min := v, q1 := v, median := v, q3 := v, max := v,
              values := [v], n := 1 : BoxRec }) ∈ boxGroupsOfVar col classes) ∧
    (((col.zip classes).filter (fun vc => vc.2 = cls)).filterMap Prod.fst = [] →
      ∀ r : BoxRec, (cls, r) ∉ boxGroupsOfVar col classes) := by
  constructor
  · intro v hv
    refine List.mem_filterMap.mpr ⟨cls, hcls, ?_⟩
    simp only [hv]
    rfl
  · intro h0 r hr
    rcases List.mem_filterMap.mp hr with ⟨x, hx, hfx⟩
    simp only at hfx
    split_ifs at hfx with hlen0 hlen1 <;>
    · simp only [Option.some.injEq, Prod.mk.injEq] at hfx
      have hxc : x = cls := hfx.1
      rw [hxc, h0] at hlen0
      exact hlen0 rfl

/-- C6 witness: with values [5, NaN] over classes [1, 2], group 1 has the
single valid value 5 and gets the collapsed record with count 1, while
group 2 has no valid value and gets no record. -/
theorem c6_boxplot_single_and_skip_witness :
    (1 : ℤ) ∈ npUnique [1, 2] ∧
    ((([some 5, none] : List Cell).zip [1, 2]).filter
      (fun vc => vc.2 = 1)).filterMap Prod.fst = [5] ∧
    ((1 : ℤ), { min := 5, q1 := 5, median := 5, q3 := 5, max := 5,
                values := [5], n := 1 : BoxRec }) ∈ boxGroupsOfVar [some 5, none] [1, 2] ∧
    ((([some 5, none] : List Cell).zip [1, 2]).filter
      (fun vc => vc.2 = 2)).filterMap Prod.fst = [] ∧
    ∀ r : BoxRec, ((2 : ℤ), r) ∉ boxGroupsOfVar [some 5, none] [1, 2] :=
  ⟨by decide, by decide,
    (c6_boxplot_single_and_skip [some 5, none] [1, 2] 1 (by decide)).1 5 (by decide),
    by decide,
    (c6_boxplot_single_and_skip [some 5, none] [1, 2] 2 (by decide)).2 (by decide)⟩

/-! ## C3 -/

lemma npUnique_sorted_lt (l : List ℤ) :
    List.Sorted (fun a b : ℤ => a < b) (npUnique l) := by
  have hle : List.Sorted (fun a b : ℤ => a ≤ b)
      (List.insertionSort (fun a b : ℤ => a ≤ b) l) :=
    List.sorted_insertionSort _ l
  have hled : List.Sorted (fun a b : ℤ => a ≤ b) (npUnique l) :=
    List.Pairwise.sublist (List.dedup_sublist _) hle
  have hnd : (npUnique l).Nodup := List.nodup_dedup _
  exact (hled.and hnd).imp (fun h => lt_of_le_of_ne h.1 h.2)

lemma mem_npUnique {l : List ℤ} {a : ℤ} : a ∈ npUnique l ↔ a ∈ l := by
  unfold npUnique
  rw [List.mem_dedup]
  exact (List.perm_insertionSort _ l).mem_iff

lemma mem_allPairs_sorted {l : List ℤ}
    (hs : List.Sorted (fun a b : ℤ => a < b) l) (a b : ℤ) :
    (a, b) ∈ allPairs l ↔ a ∈ l ∧ b ∈ l ∧ a < b := by
  induction l with
  | nil => simp [allPairs]
  | cons x rest ih =>
    rw [List.sorted_cons] at hs
    obtain ⟨hx, hrest⟩ := hs
    constructor
    · intro hmem
      rw [allPairs, List.mem_append] at hmem
      rcases hmem with hmap | hrec
      · rw [List.mem_map] at hmap
        obtain ⟨y, hy, hxy⟩ := hmap
        injection hxy with hxa hyb
        subst hxa
        subst hyb
        exact ⟨List.mem_cons_self _ _, List.mem_cons_of_mem _ hy, hx _ hy⟩
      · have hres := (ih hrest).mp hrec
        exact ⟨List.mem_cons_of_mem x hres.1, List.mem_cons_of_mem x hres.2.1,
          hres.2.2⟩
    · rintro ⟨ha, hb, hab⟩
      rw [allPairs, List.mem_append]
      rcases List.mem_cons.mp ha with hax | ha2
      · rcases List.mem_cons.mp hb with hbx | hb2
        · exfalso
          rw [hax, hbx] at hab
          exact lt_irrefl x hab
        · refine Or.inl (List.mem_map.mpr ⟨b, hb2, ?_⟩)
          rw [hax]
      · rcases List.mem_cons.mp hb with hbx | hb2
        · exfalso
          have hba := hx a ha2
          rw [hbx] at hab
          omega
        · exact Or.inr ((ih hrest).mpr ⟨ha2, hb2, hab⟩)

lemma attachFdr_mem_of {l : List Comparison} {c0 : Comparison} (h : c0 ∈ l) :
    ∃ c ∈ attachFdr l, c.groupX = c0.groupX ∧ c.groupY = c0.groupY ∧
      c.pValue = c0.pValue ∧ c.mean_diff = c0.mean_diff ∧ c.tStat = c0.tStat := by
  unfold attachFdr
  by_cases he : l.isEmpty
  · rw [if_pos he]
    exact ⟨c0, h, rfl, rfl, rfl, rfl, rfl⟩
  · rw [if_neg he]
    obtain ⟨i, hil, hieq⟩ := List.mem_iff_getElem.mp h
    refine ⟨_, List.mem_mapIdx.mpr ⟨i, hil, rfl⟩, ?_⟩
    rw [hieq]
    exact ⟨rfl, rfl, rfl, rfl, rfl⟩

lemma attachFdr_mem_rev {l : List Comparison} {c : Comparison}
    (h : c ∈ attachFdr l) :
    ∃ c0 ∈ l, c.groupX = c0.groupX ∧ c.groupY = c0.groupY ∧
      c.pValue = c0.pValue ∧ c.mean_diff = c0.mean_diff ∧ c.tStat = c0.tStat := by
  unfold attachFdr at h
  by_cases he : l.isEmpty
  · rw [if_pos he] at h
    exact ⟨c, h, rfl, rfl, rfl, rfl, rfl⟩
  · rw [if_neg he] at h
    obtain ⟨i, hil, hieq⟩ := List.mem_mapIdx.mp h
    refine ⟨l.get ⟨i, hil⟩, List.get_mem _ _ _, ?_⟩
    rw [← hieq]
    exact ⟨rfl, rfl, rfl, rfl, rfl⟩

lemma rawComparisons_mem {tt : TTest} {col : List Cell} {classes : List ℤ}
    {c : Comparison} :
    c ∈ rawComparisons tt col classes ↔
      ∃ pr ∈ allPairs (npUnique classes),
        ¬((classValues col classes pr.1).length < 2 ∨
          (classValues col classes pr.2).length < 2) ∧
        c = { groupX := pr.1, groupY := pr.2,
              pValue := ((tt (classValues col classes pr.1)
                (classValues col classes pr.2)).2).getD 1,
              mean_diff := listMean (classValues col classes pr.1) -
                listMean (classValues col classes pr.2),
              tStat := ((tt (classValues col classes pr.1)
                (classValues col classes pr.2)).1).getD 0,
              pValue_FDR := 0 } := by
  unfold rawComparisons
  rw [List.mem_filterMap]
  constructor
  · rintro ⟨pr, hpr, hf⟩
    by_cases hcond : (classValues col classes pr.1).length < 2 ∨
        (classValues col classes pr.2).length < 2
    · rw [if_pos hcond] at hf
      exact Option.noConfusion hf
    · rw [if_neg hcond] at hf
      refine ⟨pr, hpr, hcond, ?_⟩
      exact (Option.some.injEq _ _ |>.mp hf).symm
  · rintro ⟨pr, hpr, hcond, rfl⟩
    refine ⟨pr, hpr, ?_⟩
    rw [if_neg hcond]

/-- C3: for classes a < b (both present among the distinct labels in
ascending order), the pairwise list of a variable contains a comparison
for (a, b) exactly when both groups keep at least two valid values after
NaN filtering, and any such entry records the t-test p-value and
t-statistic (with NaN sentinels 1 and 0) and the mean difference
mean(group a) minus mean(group b). -/
theorem c3_pairwise_iff (tt : TTest) (col : List Cell) (classes : List ℤ)
    (a b : ℤ) (ha : a ∈ npUnique classes) (hb : b ∈ npUnique classes)
    (hab : a < b) :
    ((∃ c ∈ performMultcompare tt col classes, c.groupX = a ∧ c.groupY = b) ↔
      (2 ≤ (classValues col classes a).length ∧
       2 ≤ (classValues col classes b).length)) ∧
    (∀ c ∈ performMultcompare tt col classes, c.groupX = a → c.groupY = b →
      c.pValue = ((tt (classValues col classes a)
        (classValues col classes b)).2).getD 1 ∧
      c.tStat = ((tt (classValues col classes a)
        (classValues col classes b)).1).getD 0 ∧
      c.mean_diff = listMean (classValues col classes a) -
        listMean (classValues col classes b)) := by
  have hpairmem : (a, b) ∈ allPairs (npUnique classes) :=
    (mem_allPairs_sorted (npUnique_sorted_lt classes) a b).mpr ⟨ha, hb, hab⟩
  constructor
  · constructor
    · rintro ⟨c, hc, hga, hgb⟩
      unfold performMultcompare at hc
      obtain ⟨c0, hc0, hgx, hgy, -, -, -⟩ := attachFdr_mem_rev hc
      obtain ⟨pr, hpr, hcond, hceq⟩ := rawComparisons_mem.mp hc0
      have h1 : pr.1 = a := by
        have : c0.groupX = pr.1 := by rw [hceq]
        rw [hga, this] at hgx
        exact hgx.symm
      have h2 : pr.2 = b := by
        have : c0.groupY = pr.2 := by rw [hceq]
        rw [hgb, this] at hgy
        exact hgy.symm
      rw [h1, h2] at hcond
      omega
    · rintro ⟨h2a, h2b⟩
      have hcond : ¬((classValues col classes a).length < 2 ∨
          (classValues col classes b).length < 2) := by omega
      have hc0mem :
          ({ groupX := a, groupY := b,
             pValue := ((tt (classValues col classes a)
               (classValues col classes b)).2).getD 1,
             mean_diff := listMean (classValues col classes a) -
               listMean (classValues col classes b),
             tStat := ((tt (classValues col classes a)
               (classValues col classes b)).1).getD 0,
             pValue_FDR := 0 } : Comparison) ∈ rawComparisons tt col classes :=
        rawComparisons_mem.mpr ⟨(a, b), hpairmem, hcond, rfl⟩
      obtain ⟨c, hc, hgx, hgy, -, -, -⟩ := attachFdr_mem_of hc0mem
      exact ⟨c, hc, hgx, hgy⟩
  · intro c hc hga hgb
    unfold performMultcompare at hc
    obtain ⟨c0, hc0, hgx, hgy, hp, hmd, hts⟩ := attachFdr_mem_rev hc
    obtain ⟨pr, hpr, hcond, hceq⟩ := rawComparisons_mem.mp hc0
    have h1 : pr.1 = a := by
      have : c0.groupX = pr.1 := by rw [hceq]
      rw [hga, this] at hgx
      exact hgx.symm
    have h2 : pr.2 = b := by
      have : c0.groupY = pr.2 := by rw [hceq]
      rw [hgb, this] at hgy
      exact hgy.symm
    refine ⟨?_, ?_, ?_⟩
    · rw [hp, hceq]
      rw [h1, h2]
    · rw [hts, hceq]
      rw [h1, h2]
    · rw [hmd, hceq]
      rw [h1, h2]

/-- C3 witness: values 1..5 over classes [1,1,2,2,3]: the pair (1,2) has
two valid values in each group and appears, while the pair (1,3) has an
undersized second group and is omitted. -/
theorem c3_pairwise_iff_witness :
    (1 : ℤ) ∈ npUnique [1, 1, 2, 2, 3] ∧ (2 : ℤ) ∈ npUnique [1, 1, 2, 2, 3] ∧
    (3 : ℤ) ∈ npUnique [1, 1, 2, 2, 3] ∧
    (∃ c ∈ performMultcompare (fun _ _ => (some 0, some (1/2)))
        [some 1, some 2, some 3, some 4, some 5] [1, 1, 2, 2, 3],
      c.groupX = 1 ∧ c.groupY = 2) ∧
    ¬(∃ c ∈ performMultcompare (fun _ _ => (some 0, some (1/2)))
        [some 1, some 2, some 3, some 4, some 5] [1, 1, 2, 2, 3],
      c.groupX = 1 ∧ c.groupY = 3) := by
  refine ⟨by decide, by decide, by decide, ?_, ?_⟩
  · exact (c3_pairwise_iff (fun _ _ => (some 0, some (1/2)))
      [some 1, some 2, some 3, some 4, some 5] [1, 1, 2, 2, 3] 1 2
      (by decide) (by decide) (by decide)).1.mpr ⟨by decide, by decide⟩
  · intro hex
    have h13 := (c3_pairwise_iff (fun _ _ => (some 0, some (1/2)))
      [some 1, some 2, some 3, some 4, some 5] [1, 1, 2, 2, 3] 1 3
      (by decide) (by decide) (by decide)).1.mp hex
    have : (classValues [some 1, some 2, some 3, some 4, some 5]
        [1, 1, 2, 2, 3] 3).length = 1 := by decide
    omega

/-! ## C10 -/

/-- C10: every flattened multicomparison row carries variableIndex equal
to 1 plus the zero-based index of its source column (1-based indexing),
while every boxplot_data entry of column j is keyed by the string
`variable_` followed by the zero-based index j itself, so the two outputs
index the same variable differently. -/
theorem c10_index_conventions (sqrtF : SqrtFn) (fw : FOneway) (tt : TTest)
    (alpha : ℚ) (data : List (List Cell)) (classes : List ℤ)
    (plotOption : ℤ) (vn : Option (List String)) :
    (∀ r ∈ (analyze sqrtF fw tt alpha data classes plotOption vn).multicomparison,
      ∃ j, ∃ hj : j < data.length, r.variableIndex = j + 1 ∧
        r.comp ∈ (analyzeVar fw tt (data.get ⟨j, hj⟩) classes).multicomp) ∧
    (∀ e ∈ (analyze sqrtF fw tt alpha data classes plotOption vn).boxplot_data,
      ∃ j, e.1 = "variable_" ++ toString j ∧
        e.2.variable_name = varNameUnchecked vn j) := by
  constructor
  · intro r hr
    simp only [analyze, List.mem_flatten] at hr
    obtain ⟨lst, hlst, hrmem⟩ := hr
    rw [List.mem_mapIdx] at hlst
    obtain ⟨j, hj, hlstj⟩ := hlst
    rw [← hlstj] at hrmem
    simp only [List.mem_map] at hrmem
    obtain ⟨comp, hcomp, hrcomp⟩ := hrmem
    have hjlen : j < data.length := by simpa using hj
    refine ⟨j, hjlen, ?_, ?_⟩
    · rw [← hrcomp]
    · have hmc : ((data.map (fun col => analyzeVar fw tt col classes)).map
          (fun v => v.multicomp))[j] =
          (analyzeVar fw tt (data.get ⟨j, hjlen⟩) classes).multicomp := by
        simp [List.getElem_map, List.get_eq_getElem]
      rw [hmc] at hcomp
      rw [← hrcomp]
      exact hcomp
  · intro e he
    simp only [analyze, computeBoxplotsPerGroup, List.mem_map] at he
    obtain ⟨j, hjmem, hej⟩ := he
    refine ⟨j, ?_, ?_⟩
    · rw [← hej]
    · rw [← hej]

/-- C10 witness: a concrete two-column, four-sample, two-group analysis
whose multicomparison table and boxplot mapping are both nonempty; the
first multicomparison row is tagged with a 1-based source index and the
first boxplot entry is keyed with the raw 0-based index. -/
theorem c10_index_conventions_witness :
    (∃ j, ∃ hj : j < ([[some 1, some 2, some 3, some 4],
        [some 5, some 6, some 7, some 8]] : List (List Cell)).length,
      ((analyze (fun q => q) (fun _ => (some 1, some (1/100)))
          (fun _ _ => (some 1, some (1/2))) (1/20)
          [[some 1, some 2, some 3, some 4], [some 5, some 6, some 7, some 8]]
          [1, 1, 2, 2] 4 none).multicomparison.get ⟨0, by decide⟩).variableIndex = j + 1 ∧
      ((analyze (fun q => q) (fun _ => (some 1, some (1/100)))
          (fun _ _ => (some 1, some (1/2))) (1/20)
          [[some 1, some 2, some 3, some 4], [some 5, some 6, some 7, some 8]]
          [1, 1, 2, 2] 4 none).multicomparison.get ⟨0, by decide⟩).comp ∈
        (analyzeVar (fun _ => (some 1, some (1/100))) (fun _ _ => (some 1, some (1/2)))
          (([[some 1, some 2, some 3, some 4],
             [some 5, some 6, some 7, some 8]] : List (List Cell)).get ⟨j, hj⟩)
          [1, 1, 2, 2]).multicomp) ∧
    (∃ j, ((analyze (fun q => q) (fun _ => (some 1, some (1/100)))
          (fun _ _ => (some 1, some (1/2))) (1/20)
          [[some 1, some 2, some 3, some 4], [some 5, some 6, some 7, some 8]]
          [1, 1, 2, 2] 4 none).boxplot_data.get ⟨0, by decide⟩).1 =
        "variable_" ++ toString j ∧
      ((analyze (fun q => q) (fun _ => (some 1, some (1/100)))
          (fun _ _ => (some 1, some (1/2))) (1/20)
          [[some 1, some 2, some 3, some 4], [some 5, some 6, some 7, some 8]]
          [1, 1, 2, 2] 4 none).boxplot_data.get ⟨0, by decide⟩).2.variable_name =
        varNameUnchecked none j) :=
  ⟨(c10_index_conventions (fun q => q) (fun _ => (some 1, some (1/100)))
      (fun _ _ => (some 1, some (1/2))) (1/20)
      [[some 1, some 2, some 3, some 4], [some 5, some 6, some 7, some 8]]
      [1, 1, 2, 2] 4 none).1 _ (List.get_mem _ _ _),
   (c10_index_conventions (fun q => q) (fun _ => (some 1, some (1/100)))
      (fun _ _ => (some 1, some (1/2))) (1/20)
      [[some 1, some 2, some 3, some 4], [some 5, some 6, some 7, some 8]]
      [1, 1, 2, 2] 4 none).2 _ (List.get_mem _ _ _)⟩

end ChemoStats
